import Mathlib

/-! Formal model of the pyproffit deprojection engine (deproject.py).

Python floats are modelled as exact real numbers.  Where the source can
produce IEEE NaN (fractional powers of negative bases inside the
volume-matrix main pass), values are modelled as Option ℝ with none
standing for NaN: arithmetic propagates none and any comparison with
none is false, as in IEEE 754.  numpy arrays are modelled as Lean lists
or as index functions with explicit lengths.  External collaborators
(the cosmology calculator, the random generator, the MCMC sampler) enter
as explicit parameters.  Plotting and file output are side effects with
no influence on returned values and are not modelled. -/

namespace Pyproffit

noncomputable section
open Classical Real

/-! ## numpy primitives -/

/-- numpy.linspace with endpoint=True: the k-th of n evenly spaced values
from a to b (for n = 1 numpy returns the single value a). -/
def linspace (a b : ℝ) (n : ℕ) (k : ℕ) : ℝ :=
  if n ≤ 1 then a else a + (b - a) * k / ((n : ℝ) - 1)

/-- numpy.log10. -/
def log10 (x : ℝ) : ℝ := Real.log x / Real.log 10

/-- numpy.logspace: the k-th of n log-spaced points from 10^a to 10^b. -/
def logspace (a b : ℝ) (n : ℕ) (k : ℕ) : ℝ := (10 : ℝ) ^ linspace a b n k

/-- numpy.repeat on a 1-d array: each element repeated m times in place. -/
def npRepeatEach {α : Type} : List α → ℕ → List α
  | [], _ => []
  | a :: t, m => List.replicate m a ++ npRepeatEach t m

/-- numpy.tile on a 1-d array: the list concatenated with itself m times. -/
def npTile {α : Type} (l : List α) : ℕ → List α
  | 0 => []
  | m + 1 => l ++ npTile l m

/-- Ascending sort, as numpy.sort. -/
def npSort (l : List ℝ) : List ℝ := l.insertionSort (· ≤ ·)

/-- numpy.percentile with the default linear interpolation scheme. -/
def npPercentile (l : List ℝ) (q : ℝ) : ℝ :=
  let s := npSort l
  let h := q / 100 * ((l.length : ℝ) - 1)
  let lo := ⌊h⌋₊
  let x0 := s.getD lo 0
  let x1 := s.getD (min (lo + 1) (l.length - 1)) 0
  x0 + (h - (lo : ℝ)) * (x1 - x0)

/-- numpy.median coincides with the 50th percentile under linear
interpolation (mean of the two central values at even length). -/
def npMedian (l : List ℝ) : ℝ := npPercentile l 50

/-- numpy.mean. -/
def npMean (l : List ℝ) : ℝ := l.sum / l.length

/-- numpy.std with the default ddof=0 (population standard deviation). -/
def npStd (l : List ℝ) : ℝ :=
  Real.sqrt (npMean (l.map fun x => (x - npMean l) ^ 2))

/-- Entry (i, j) of numpy.cov for a matrix whose rows are variables and
whose nobs columns are observations, with the default ddof=1. -/
def npCov (nobs : ℕ) (m : ℕ → ℕ → ℝ) (i j : ℕ) : ℝ :=
  let mi := npMean ((List.range nobs).map (m i))
  let mj := npMean ((List.range nobs).map (m j))
  (((List.range nobs).map fun k => (m i k - mi) * (m j k - mj)).sum) / ((nobs : ℝ) - 1)

/-- scipy interp1d: piecewise-linear interpolation along ascending nodes.
Out-of-range queries raise ValueError in the source and are guarded at
the call site. -/
def linInterp : List (ℝ × ℝ) → ℝ → ℝ
  | [], _ => 0
  | [(_, y0)], _ => y0
  | (x0, y0) :: (x1, y1) :: t, x =>
    if x ≤ x1 then y0 + (x - x0) * (y1 - y0) / (x1 - x0)
    else linInterp ((x1, y1) :: t) x

/-- The 5-point median smoothing filter medsmooth with its asymmetric
boundary handling.  The source assigns smoothed[1], then smoothed[n-2],
then the two true endpoints, so later assignments win when indices
coincide; the if-chain below reproduces that priority for n ≥ 2.
np.roll indexes circularly, hence the mod-n index arithmetic. -/
def medsmooth (n : ℕ) (p : ℕ → ℝ) (i : ℕ) : ℝ :=
  if i = 0 then npMedian [3 * p 0 - 2 * p 1, p 0, p 1]
  else if i = n - 1 then
    npMedian [3 * p (n - 1) - 2 * p (n - 2), p (n - 2), p (n - 1)]
  else if i = n - 2 then
    npMedian [p ((2 * n - 4) % n), p ((2 * n - 3) % n), p (n - 2), p (n - 1)]
  else if i = 1 then npMedian [p 0, p 1, p 2, p 3]
  else
    npMedian [p ((i + n - 2) % n), p ((i + n - 1) % n), p i,
      p ((i + 1) % n), p ((i + 2) % n)]

/-! ## MyDeprojVol.deproj_vol -/

/-- One step per shell of the radius-continuity pre-pass: at position
i ≥ 1 the source accumulates the percentage mismatch between ri[i] and
the original ro[i-1] and then unconditionally assigns ro[i-1] := ri[i].
sPrev is the original ro[i-1]; the heads of the two lists are ri[i] and
the original ro[i].  Generic in the ordered field so that it can be
analysed both over ℚ and over ℝ. -/
def prepassGo {α : Type} [LinearOrderedField α] : α → List α → List α → List α × α
  | sPrev, r :: rs, s :: ss =>
    let dif := |r - sPrev| / sPrev * 100
    let rest := prepassGo s rs ss
    (r :: rest.1, dif + rest.2)
  | sPrev, _, _ => ([sPrev], 0)

/-- The full pre-pass of deproj_vol: returns the rewritten outer radii
(ro[i-1] := ri[i] for every i ≥ 1, last entry kept) together with the
accumulated percentage mismatch diftot. -/
def prepass {α : Type} [LinearOrderedField α] : List α → List α → List α × α
  | _ :: rs, s :: ss => prepassGo s rs ss
  | _, ro => (ro, 0)

/-- True exactly when the source prints the DEPROJ_VOL warning
(abs(diftot) > 0.1); the warning has no effect on the computed radii. -/
def prepassWarns {α : Type} [LinearOrderedField α] (ri ro : List α) : Prop :=
  1 / 10 < |(prepass ri ro).2|

/-- x ** 1.5 under IEEE float semantics: NaN (modelled none) for a
negative base, else x^(3/2) = x * sqrt x. -/
def p15 (x : ℝ) : Option ℝ := if x < 0 then none else some (x * Real.sqrt x)

/-- NaN-propagating subtraction. -/
def osub : Option ℝ → Option ℝ → Option ℝ
  | some a, some b => some (a - b)
  | _, _ => none

/-- Entry volmat[ishell, iring] (for ishell ≥ iring) of the main pass of
deproj_vol: the diagonal uses the in-annulus shell volume, entries below
the diagonal the two-term spherical-cap difference formula. -/
def volEntry (ri ro : ℕ → ℝ) (ishell iring : ℕ) : Option ℝ :=
  if ishell = iring then
    (p15 (1 - (ri iring / ro iring) ^ 2)).map fun t => 4 / 3 * π * ro iring ^ 3 * t
  else
    let f1 := osub (p15 (1 - (ri iring / ro ishell) ^ 2))
      (p15 (1 - (ro iring / ro ishell) ^ 2))
    let f2 := osub (p15 (1 - (ri iring / ri ishell) ^ 2))
      (p15 (1 - (ro iring / ri ishell) ^ 2))
    match f1, f2 with
    | some a, some b => some (4 / 3 * π * (a * ro ishell ^ 3 - b * ri ishell ^ 3))
    | _, _ => none

/-- The order in which the source tests off-diagonal entries for
negativity: iring from nbin-1 down to 0, ishell from nbin-1 down to
iring+1.  Diagonal entries are never tested. -/
def checkOrder (nbin : ℕ) : List (ℕ × ℕ) :=
  ((List.range nbin).reverse).flatMap fun iring =>
    ((List.range' (iring + 1) (nbin - (iring + 1))).reverse).map fun ishell =>
      (iring, ishell)

/-- The source test volmat[ishell, iring] < 0.0; false on NaN entries, as
for any IEEE comparison with NaN. -/
def entryNeg (o : Option ℝ) : Prop := ∃ x, o = some x ∧ x < 0

/-- Walk the checked entries in source order; the exit() call on the
first negative entry is modelled by returning none.  Entries are pure
functions of the radii, so no matrix state needs to be threaded. -/
def runChecks (ri ro : ℕ → ℝ) : List (ℕ × ℕ) → Option Unit
  | [] => some ()
  | p :: rest =>
    if entryNeg (volEntry ri ro p.2 p.1) then none else runChecks ri ro rest

/-- MyDeprojVol.deproj_vol.  The result none models the exit() call that
terminates the host process; otherwise the volume matrix is returned
(np.zeros initialisation, entries at ishell ≥ iring < nbin filled, NaN
entries as none). -/
def deproj_vol (radin radot : List ℝ) : Option (ℕ → ℕ → Option ℝ) :=
  let ro' := (prepass radin radot).1
  let ri := fun i => radin.getD i 0
  let ro := fun i => ro'.getD i 0
  let nbin := ro'.length
  match runChecks ri ro (checkOrder nbin) with
  | none => none
  | some _ => some fun ishell iring =>
      if iring ≤ ishell ∧ ishell < nbin then volEntry ri ro ishell iring else some 0

/-- EdgeCorr: closed-form edge correction for the truncation of the
outermost shell.  The two branches reproduce the numpy elementwise
masking on rin != 0; em0.clip(min=1e-10) is the max with 1e-10. -/
def EdgeCorr (nbin : ℕ) (rin_cm rout_cm em0 : ℕ → ℝ) (i : ℕ) : ℝ :=
  let m0 := rin_cm (nbin - 1)
  let m1 := rout_cm (nbin - 1)
  let edget :=
    if rin_cm i ≠ 0 then
      let edge0 := (m0 + m1) * m0 * m1 / (rin_cm i + rout_cm i) / rin_cm i / rout_cm i
      let edge1 := rout_cm i / rin_cm i * Real.arccos (rin_cm i / m1) -
        Real.arccos (rout_cm i / m1)
      let edge2 := rout_cm i / m1 * (Real.sqrt (1 - rin_cm i ^ 2 / m1 ^ 2) -
        Real.sqrt (1 - rout_cm i ^ 2 / m1 ^ 2))
      edge0 * (1 - 2 / π * (edge1 - edge2) / (rout_cm i / rin_cm i - 1))
    else
      let edge0 := (m0 + m1) * m0 * m1 / rout_cm i ^ 3
      let edge1 := 2 * rout_cm i / m1 + Real.arccos (rout_cm i / m1)
      let edge2 := rout_cm i / m1 * Real.sqrt (1 - rout_cm i ^ 2 / m1 ^ 2)
      edge0 * (-1 + 2 / π * (edge1 - edge2))
  let surf := (rout_cm i ^ 2 - rin_cm i ^ 2) / (m1 ^ 2 - m0 ^ 2)
  edget * surf * em0 (nbin - 1) / max (em0 i) (1e-10)

/-! ## Forward operator builders

The source-region index set np.where(rad < bkglim) is a prefix of
indices for the sorted radius arrays the package produces, so it is
modelled by its size npt (the source then reads area[0:npt] etc.). -/

/-- The surface-brightness basis shape (1 + (r/rc)^2)^(-3 beta + 0.5),
factored out of the builders (each of which computes it inline). -/
def sbShape (r beta rc : ℝ) : ℝ := (1 + (r / rc) ^ 2) ^ (-3 * beta + 0.5 : ℝ)

/-- calc_linear_operator: the predicted-counts operator.  Basis shapes
at the source-region radii are multiplied by per-bin area and exposure,
convolved with the PSF, embedded top-left into an nptot x (npars + 1)
zero matrix, and the background column is set to area * expo in every
row. -/
def calc_linear_operator (nptot : ℕ) (rad : Fin nptot → ℝ) (npt : ℕ)
    (pars : List (ℝ × ℝ)) (area expo : Fin nptot → ℝ)
    (psf : Fin nptot → Fin nptot → ℝ) :
    Matrix (Fin nptot) (Fin (pars.length + 1)) ℝ :=
  Matrix.of fun i j =>
    if hj : (j : ℕ) < pars.length then
      if (i : ℕ) < npt then
        ∑ k : Fin nptot, (if (k : ℕ) < npt then
          psf i k * (sbShape (rad k) (pars.get ⟨j, hj⟩).1 (pars.get ⟨j, hj⟩).2
            * area k * expo k) else 0)
      else 0
    else area i * expo i

/-- calc_sb_operator: the plain surface-brightness operator; bare shape
evaluation in the source region, zero background column. -/
def calc_sb_operator (nptot : ℕ) (rad : Fin nptot → ℝ) (npt : ℕ)
    (pars : List (ℝ × ℝ)) :
    Matrix (Fin nptot) (Fin (pars.length + 1)) ℝ :=
  Matrix.of fun i j =>
    if hj : (j : ℕ) < pars.length then
      if (i : ℕ) < npt then
        sbShape (rad i) (pars.get ⟨j, hj⟩).1 (pars.get ⟨j, hj⟩).2
      else 0
    else 0

/-- calc_sb_operator_psf, translated statement by statement: it repeats
the body of calc_linear_operator, including the area and exposure
multiplication and the area * expo background column. -/
def calc_sb_operator_psf (nptot : ℕ) (rad : Fin nptot → ℝ) (npt : ℕ)
    (pars : List (ℝ × ℝ)) (area expo : Fin nptot → ℝ)
    (psf : Fin nptot → Fin nptot → ℝ) :
    Matrix (Fin nptot) (Fin (pars.length + 1)) ℝ :=
  Matrix.of fun i j =>
    if hj : (j : ℕ) < pars.length then
      if (i : ℕ) < npt then
        ∑ k : Fin nptot, (if (k : ℕ) < npt then
          psf i k * (sbShape (rad k) (pars.get ⟨j, hj⟩).1 (pars.get ⟨j, hj⟩).2
            * area k * expo k) else 0)
      else 0
    else area i * expo i

/-- Modelled from the spec (refinement reference for the PSF sibling):
"a PSF-convolved sibling applies the same PSF multiplication as the
counts operator but no area/exposure" and no multiplication by per-bin
area or exposure anywhere in the matrix, hence a zero background
column like the plain surface-brightness operator. -/
def sb_psf_operator_spec (nptot : ℕ) (rad : Fin nptot → ℝ) (npt : ℕ)
    (pars : List (ℝ × ℝ)) (psf : Fin nptot → Fin nptot → ℝ) :
    Matrix (Fin nptot) (Fin (pars.length + 1)) ℝ :=
  Matrix.of fun i j =>
    if hj : (j : ℕ) < pars.length then
      if (i : ℕ) < npt then
        ∑ k : Fin nptot, (if (k : ℕ) < npt then
          psf i k * sbShape (rad k) (pars.get ⟨j, hj⟩).1 (pars.get ⟨j, hj⟩).2 else 0)
      else 0
    else 0

/-- calc_int_operator: cumulative-flux operator evaluated at the two
radii a and b (rows 0 and 1), closed-form antiderivative with exponent
-3 beta + 1.5; zero background column. -/
def calc_int_operator (a b : ℝ) (pars : List (ℝ × ℝ)) :
    Matrix (Fin 2) (Fin (pars.length + 1)) ℝ :=
  Matrix.of fun i j =>
    if hj : (j : ℕ) < pars.length then
      let beta := (pars.get ⟨j, hj⟩).1
      let rc := (pars.get ⟨j, hj⟩).2
      let r := if (i : ℕ) = 0 then a else b
      2 * π * (1 + (r / rc) ^ 2) ^ (-3 * beta + 1.5 : ℝ) / (3 - 6 * beta) * rc ^ 2
    else 0

/-- calc_density_operator: exponent -3 beta (no +0.5) on radii scaled to
physical units by kpcp, with the closed-form Abel deprojection prefactor
Gamma(3 beta)/Gamma(3 beta - 0.5)/sqrt(pi)/rc; zero background column.
The source scales and uses the whole radius array (the sourcereg
argument is accepted but unused there). -/
def calc_density_operator (nptot : ℕ) (rad : Fin nptot → ℝ) (kpcp : ℝ)
    (pars : List (ℝ × ℝ)) :
    Matrix (Fin nptot) (Fin (pars.length + 1)) ℝ :=
  Matrix.of fun i j =>
    if hj : (j : ℕ) < pars.length then
      let beta := (pars.get ⟨j, hj⟩).1
      let rc := (pars.get ⟨j, hj⟩).2
      let func_base := (1 + (rad i * kpcp / rc) ^ 2) ^ (-3 * beta : ℝ)
      let cfact := Real.Gamma (3 * beta) / Real.Gamma (3 * beta - 0.5) /
        Real.sqrt π / rc
      func_base * cfact
    else 0

/-- list_params: the default (slope, core radius) basis grid.  rad is
the radius array and npfit the source-region size; nsh = 4 fixes the
default core-radius count int(npfit/4). -/
def list_params (rad : ℕ → ℝ) (npfit : ℕ) (nrcO : Option ℕ) (nbetas : ℕ) :
    List (ℝ × ℝ) :=
  let nrc := nrcO.getD (npfit / 4)
  let allrc := (List.range nrc).map fun k =>
    logspace (log10 (rad 2)) (log10 (rad (npfit - 1) / 2)) nrc k
  let allbetas := (List.range nbetas).map fun k => linspace 0.6 3 nbetas k
  (npTile allbetas allrc.length).zip (npRepeatEach allrc allbetas.length)

/-- list_params_density: as list_params but with core radii converted to
physical units by the kpc-per-arcmin factor kpcp (external cosmology
calculator).  The source indexes rfit[2] before anything else, so a
source region with fewer than 3 points raises IndexError - modelled by
returning none. -/
def list_params_density (rad : ℕ → ℝ) (npfit : ℕ) (kpcp : ℝ)
    (nrcO : Option ℕ) (nbetas : ℕ) : Option (List (ℝ × ℝ)) :=
  if npfit < 3 then none
  else
    let nrc := nrcO.getD (npfit / 4)
    let allrc := (List.range nrc).map fun k =>
      logspace (log10 (rad 2)) (log10 (rad (npfit - 1) / 2)) nrc k * kpcp
    let allbetas := (List.range nbetas).map fun k => linspace 0.6 3 nbetas k
    some ((npTile allbetas allrc.length).zip (npRepeatEach allrc allbetas.length))

/-! ## Data model -/

/-- The observational radial profile (external, read-only input).
Arrays are index functions, meaningful for indices below nbin. -/
structure Prof where
  nbin : ℕ
  bins : ℕ → ℝ
  ebins : ℕ → ℝ
  profile : ℕ → ℝ
  eprof : ℕ → ℝ
  counts : ℕ → ℝ
  area : ℕ → ℝ
  effexp : ℕ → ℝ
  bkgprof : ℕ → ℝ
  bkgcounts : ℕ → ℝ
  psfmat : Option (ℕ → ℕ → ℝ)

/-- The sample matrix returned by the external sampler or reloaded from
file: nsamp rows of log-amplitudes, npars + 1 columns. -/
structure Samples where
  nsamp : ℕ
  val : ℕ → ℕ → ℝ

/-- Deproject: the deprojection state container. -/
structure DeprojState where
  profile : Option Prof
  z : Option ℝ
  cf : Option ℝ
  bkglim : Option ℝ
  samples : Option Samples
  nhc : ℝ
  mup : ℝ
  mu_e : ℝ
  dens : Option (ℕ → ℝ) := none
  dens_lo : Option (ℕ → ℝ) := none
  dens_hi : Option (ℕ → ℝ) := none
  sb : Option (ℕ → ℝ) := none
  sb_lo : Option (ℕ → ℝ) := none
  sb_hi : Option (ℕ → ℝ) := none
  covmat : Option (ℕ → ℕ → ℝ) := none
  bkg : Option ℝ := none
  rout : Option (List ℝ) := none
  rec_counts : Option (ℕ → ℝ) := none
  mg : Option (ℕ → ℝ) := none
  mgl : Option (ℕ → ℝ) := none
  mgh : Option (ℕ → ℝ) := none

/-- The f_abund abundance-table lookup in Deproject.__init__ (the Python
str is modelled as List Char): three recognized tables; any other string
falls through to the aspl constants without an error. -/
def abundance (f_abund : List Char) : ℝ × ℝ × ℝ :=
  if f_abund = ['a', 'n', 'g', 'r'] then (1 / 0.8337, 0.6125, 1.1738)
  else if f_abund = ['a', 's', 'p', 'l'] then (1 / 0.8527, 0.5994, 1.1548)
  else if f_abund = ['g', 'r', 's', 'a'] then (1 / 0.8520, 0.6000, 1.1555)
  else (1 / 0.8527, 0.5994, 1.1548)

/-- Deproject.__init__: records profile, z and cf, clears every derived
field, and resolves the abundance table to (nhc, mup, mu_e). -/
def deprojectInit (z : Option ℝ) (profile : Option Prof) (cf : Option ℝ)
    (f_abund : List Char) : DeprojState :=
  { profile := profile, z := z, cf := cf, bkglim := none, samples := none,
    nhc := (abundance f_abund).1, mup := (abundance f_abund).2.1,
    mu_e := (abundance f_abund).2.2 }

/-- Uncaught Python exception kinds the modelled code can raise. -/
inductive PyErr where
  | typeError
  | attributeError
  | valueError
  | linAlgError
  | indexError
  deriving DecidableEq

/-- The error messages the modelled methods print before a bare return. -/
inductive PrintedMsg where
  | noMCMCSamples
  | noRedshiftOrConvFactor
  | noGasDensityProfile
  | noProfileReconstruction
  deriving DecidableEq

/-- Outcome of a Python call: a returned value, a printed error message
followed by a bare return (state untouched), an uncaught exception
(state untouched), or process termination through exit(). -/
inductive PyResult (α : Type) where
  | ok : α → PyResult α
  | printedError : PrintedMsg → PyResult α
  | raised : PyErr → PyResult α
  | exited : PyResult α

/-- Size of the source region np.where(rad < bkglim), a prefix of the
index range for the sorted radius arrays produced upstream. -/
def srcCount (prof : Prof) (bkglim : ℝ) : ℕ :=
  ((List.range prof.nbin).filter fun i => decide (prof.bins i < bkglim)).length

/-- The PSF matrix the methods use: the transposed profile PSF when one
is present, else the identity np.eye(nbin). -/
def psfOrId (prof : Prof) : ℕ → ℕ → ℝ :=
  match prof.psfmat with
  | some m => fun i j => m j i
  | none => fun i j => if i = j then 1 else 0

/-- cm per Mpc (module constant of the source). -/
def Mpc : ℝ := 3.0856776e24

/-- cm per kpc. -/
def kpc : ℝ := 3.0856776e21

/-- Solar mass in g. -/
def msun : ℝ := 1.9891e33

/-- Proton mass in g. -/
def mh : ℝ := 1.66053904e-24

/-! ## The onion-peeling deprojector -/

/-- OP, the onion-peeling deprojector.  kpcp and dlumMpc are the values
the external cosmology calculator returns for deproj.z (kpc per arcmin
and luminosity distance in Mpc); noise models the np.random.randn draw.
In the branch without redshift or conversion factor the source calls
EdgeCorr(nbin, rinam, routam), omitting the required fourth argument
em0, so Python raises TypeError there - after the volume matrix was
built, whose own negative-entry exit() can fire first.  np.linalg.solve
on a singular volume matrix raises LinAlgError.  Reading the volume
matrix off with getD 0 treats NaN entries as 0; that is exact for the
NaN-free matrices produced by strictly increasing positive radii, while
the source would instead propagate NaN through the solve. -/
def OP (dep : DeprojState) (kpcp dlumMpc : ℝ) (noise : ℕ → ℕ → ℝ)
    (nmc : ℕ) : PyResult DeprojState :=
  match dep.profile with
  | none => .raised .attributeError
  | some prof =>
    let nbin := prof.nbin
    let rinam := fun i => prof.bins i - prof.ebins i
    let routam := fun i => prof.bins i + prof.ebins i
    let area := fun i => π * (routam i ^ 2 - rinam i ^ 2)
    match dep.z, dep.cf with
    | some z, some cf =>
      let rin_cm := fun i => rinam i * kpcp * Mpc / 1e3
      let rout_cm := fun i => routam i * kpcp * Mpc / 1e3
      match deproj_vol ((List.range nbin).map rin_cm)
          ((List.range nbin).map rout_cm) with
      | none => .exited
      | some volmat =>
        let vol : Matrix (Fin nbin) (Fin nbin) ℝ :=
          Matrix.of fun i j => (volmat (j : ℕ) (i : ℕ)).getD 0
        let dlum := dlumMpc * Mpc
        let K2em := 4 * π * 1e14 * dlum ^ 2 / (1 + z) ^ 2 / dep.nhc / cf
        let em0 := fun i => prof.profile i * K2em * area i
        let e_em0 := fun i => prof.eprof i * K2em * area i
        let corr := EdgeCorr nbin rin_cm rout_cm em0
        let rhs : Matrix (Fin nbin) (Fin nmc) ℝ :=
          Matrix.of fun i k => (e_em0 (i : ℕ) * noise (i : ℕ) (k : ℕ) + em0 (i : ℕ)) *
            (1 - corr (i : ℕ))
        if IsUnit vol.det then
          let allres := vol⁻¹ * rhs
          let ev0 := fun i : ℕ => if h : i < nbin then
            npStd ((List.finRange nmc).map fun k => allres ⟨i, h⟩ k) else 0
          let v0 := fun i : ℕ => if h : i < nbin then
            npMedian ((List.finRange nmc).map fun k => allres ⟨i, h⟩ k) else 0
          let bsm := medsmooth nbin v0
          let dens := medsmooth nbin fun i => Real.sign (bsm i) * Real.sqrt |bsm i|
          let edens := fun i => 0.5 / Real.sqrt |bsm i| * ev0 i
          .ok { dep with
            sb := some bsm,
            sb_lo := some fun i => bsm i - ev0 i,
            sb_hi := some fun i => bsm i + ev0 i,
            dens := some dens,
            dens_lo := some fun i => dens i - edens i,
            dens_hi := some fun i => dens i + edens i }
        else .raised .linAlgError
    | _, _ =>
      match deproj_vol ((List.range nbin).map rinam)
          ((List.range nbin).map routam) with
      | none => .exited
      | some _ => .raised .typeError

/-! ## Derived-quantity methods -/

/-- Deproject.Density.  kpcp is the external cosmology value for z; routO
optionally gives output radii.  The source reads prof.bins (raising
AttributeError on a missing profile) and evaluates rad < self.bkglim
(raising TypeError on an unset bkglim) before any other check.  Inside
the redshift branch the grid list_params_density is built first - with
fewer than 3 source-region bins its rfit[2] raises IndexError - and
only then is np.exp(samples.T) evaluated, which raises AttributeError
when no sample matrix has been loaded: the method never guards
samples. -/
def Density (dep : DeprojState) (kpcp : ℝ) (routO : Option (List ℝ)) :
    PyResult DeprojState :=
  match dep.profile with
  | none => .raised .attributeError
  | some prof =>
    match dep.bkglim with
    | none => .raised .typeError
    | some bkglim =>
      match dep.z, dep.cf with
      | some z, some cf =>
        let transf := 4 * (1 + z) ^ 2 * (180 * 60 : ℝ) ^ 2 / π / 1e-14 /
          dep.nhc / Mpc * 1e3
        let npt := srcCount prof bkglim
        match list_params_density prof.bins npt kpcp none 6 with
        | none => .raised .indexError
        | some pardens =>
          match dep.samples with
          | none => .raised .attributeError
          | some smp =>
            let routL := routO.getD ((List.range prof.nbin).map prof.bins)
            let n_out := routL.length
            let Kdens := calc_density_operator n_out
              (fun i => routL.getD (i : ℕ) 0) kpcp pardens
            let alldens := fun (i : ℕ) (k : ℕ) =>
              Real.sqrt ((∑ j : Fin (pardens.length + 1),
                (if h : i < n_out then Kdens ⟨i, h⟩ j else 0) *
                  Real.exp (smp.val k (j : ℕ))) / cf * transf)
            let rows := fun i => (List.range smp.nsamp).map (alldens i)
            .ok { dep with
              covmat := some (npCov smp.nsamp alldens),
              dens := some fun i => npMedian (rows i),
              dens_lo := some fun i => npPercentile (rows i) (50 - 68.3 / 2),
              dens_hi := some fun i => npPercentile (rows i) (50 + 68.3 / 2),
              rout := some routL }
      | _, _ => .printedError .noRedshiftOrConvFactor

/-- Deproject.CountRate(a, b): guards missing samples with a printed
error; silently clamps a up to bins[0]/2; returns the median and the
68.3 percent interval of the flux integrated between the two radii. -/
def CountRate (dep : DeprojState) (a b : ℝ) : PyResult (ℝ × ℝ × ℝ) :=
  match dep.samples with
  | none => .printedError .noMCMCSamples
  | some smp =>
    match dep.profile with
    | none => .raised .attributeError
    | some prof =>
      match dep.bkglim with
      | none => .raised .typeError
      | some bkglim =>
        let a1 := if a < prof.bins 0 / 2 then prof.bins 0 / 2 else a
        let npt := srcCount prof bkglim
        let pars := list_params prof.bins npt none 6
        let Kint := calc_int_operator a1 b pars
        let diffs := (List.range smp.nsamp).map fun k =>
          (∑ j : Fin (pars.length + 1), Kint 1 j * Real.exp (smp.val k (j : ℕ))) -
          (∑ j : Fin (pars.length + 1), Kint 0 j * Real.exp (smp.val k (j : ℕ)))
        .ok (npMedian diffs, npPercentile diffs (50 - 68.3 / 2),
          npPercentile diffs (50 + 68.3 / 2))

/-- Deproject.Ncounts: guards missing samples with a printed error;
zeroes the background column of the counts operator, sums reconstructed
counts over bins, and records the per-bin median into rec_counts. -/
def Ncounts (dep : DeprojState) : PyResult (DeprojState × (ℝ × ℝ × ℝ)) :=
  match dep.samples with
  | none => .printedError .noMCMCSamples
  | some smp =>
    match dep.profile with
    | none => .raised .attributeError
    | some prof =>
      match dep.bkglim with
      | none => .raised .typeError
      | some bkglim =>
        let npt := srcCount prof bkglim
        let pars := list_params prof.bins npt none 6
        let K := calc_linear_operator prof.nbin
          (fun i => prof.bins (i : ℕ)) npt pars (fun i => prof.area (i : ℕ))
          (fun i => prof.effexp (i : ℕ)) (fun i j => psfOrId prof (i : ℕ) (j : ℕ))
        let Kz := fun (i : Fin prof.nbin) (j : Fin (pars.length + 1)) =>
          if (j : ℕ) = pars.length then 0 else K i j
        let allnc := fun (i : Fin prof.nbin) (k : ℕ) =>
          ∑ j : Fin (pars.length + 1), Kz i j * Real.exp (smp.val k (j : ℕ))
        let rec_counts := fun (i : ℕ) =>
          if h : i < prof.nbin then
            npMedian ((List.range smp.nsamp).map (allnc ⟨i, h⟩)) else 0
        let ncv := (List.range smp.nsamp).map fun k =>
          ∑ i : Fin prof.nbin, allnc i k
        .ok ({ dep with rec_counts := some rec_counts },
          (npMedian ncv, npPercentile ncv (50 - 68.3 / 2),
            npPercentile ncv (50 + 68.3 / 2)))

/-- Deproject.Mgas: a single printed error guards samples, z and cf;
computes the cumulative gas-mass profile and interpolates it at the
requested radius (out-of-domain radii raise ValueError in interp1d;
a source region of fewer than 3 bins raises IndexError inside
list_params_density). -/
def Mgas (dep : DeprojState) (kpcp : ℝ) (radius : ℝ) : PyResult (ℝ × ℝ × ℝ) :=
  match dep.samples, dep.z, dep.cf with
  | some smp, some z, some cf =>
    match dep.profile with
    | none => .raised .attributeError
    | some prof =>
      match dep.bkglim with
      | none => .raised .typeError
      | some bkglim =>
        let rkpc := fun i => prof.bins i * kpcp
        let erkpc := fun i => prof.ebins i * kpcp
        let nhconv := mh * dep.mu_e * dep.nhc * kpc ^ 3 / msun
        let npt := srcCount prof bkglim
        let transf := 4 * (1 + z) ^ 2 * (180 * 60 : ℝ) ^ 2 / π / 1e-14 /
          dep.nhc / Mpc * 1e3
        match list_params_density prof.bins npt kpcp none 6 with
        | none => .raised .indexError
        | some pardens =>
          let Kdens := calc_density_operator prof.nbin
            (fun i => prof.bins (i : ℕ)) kpcp pardens
          let alldens := fun (i : Fin prof.nbin) (k : ℕ) =>
            Real.sqrt ((∑ j : Fin (pardens.length + 1),
              Kdens i j * Real.exp (smp.val k (j : ℕ))) / cf * transf)
          let mgas := fun (i : ℕ) (k : ℕ) =>
            ∑ i2 : Fin prof.nbin, if (i2 : ℕ) ≤ i then
              alldens i2 k * nhconv *
                (4 * π * rkpc (i2 : ℕ) ^ 2 * 2 * erkpc (i2 : ℕ)) else 0
          if radius < rkpc 0 ∨ rkpc (prof.nbin - 1) < radius then
            .raised .valueError
          else
            let mgasdist := (List.range smp.nsamp).map fun k =>
              linInterp ((List.range prof.nbin).map fun i =>
                (rkpc i, mgas i k)) radius
            .ok (npMedian mgasdist, npPercentile mgasdist (50 - 68.3 / 2),
              npPercentile mgasdist (50 + 68.3 / 2))
  | _, _, _ => .printedError .noGasDensityProfile

/-- Deproject.CSB: a single printed error guards samples and z; ratio of
two integral-operator evaluations out to rin and rout kpc, both starting
from the clamped inner radius bins[0]/2. -/
def CSB (dep : DeprojState) (kpcp : ℝ) (rin rout : ℝ) : PyResult (ℝ × ℝ × ℝ) :=
  match dep.samples, dep.z with
  | some smp, some _ =>
    match dep.profile with
    | none => .raised .attributeError
    | some prof =>
      match dep.bkglim with
      | none => .raised .typeError
      | some bkglim =>
        let npt := srcCount prof bkglim
        let pars := list_params prof.bins npt none 6
        let Kin := calc_int_operator (prof.bins 0 / 2) (rin / kpcp) pars
        let Kout := calc_int_operator (prof.bins 0 / 2) (rout / kpcp) pars
        let ratios := (List.range smp.nsamp).map fun k =>
          ((∑ j : Fin (pars.length + 1), Kin 1 j * Real.exp (smp.val k (j : ℕ))) -
           (∑ j : Fin (pars.length + 1), Kin 0 j * Real.exp (smp.val k (j : ℕ)))) /
          ((∑ j : Fin (pars.length + 1), Kout 1 j * Real.exp (smp.val k (j : ℕ))) -
           (∑ j : Fin (pars.length + 1), Kout 0 j * Real.exp (smp.val k (j : ℕ))))
        .ok (npMedian ratios, npPercentile ratios (50 - 68.3 / 2),
          npPercentile ratios (50 + 68.3 / 2))
  | _, _ => .printedError .noProfileReconstruction

/-! ## Concrete states used by witnesses and counterexamples -/

/-- A tiny one-bin profile. -/
def profW : Prof :=
  { nbin := 1, bins := fun _ => 1, ebins := fun _ => 1 / 2,
    profile := fun _ => 1, eprof := fun _ => 1, counts := fun _ => 1,
    area := fun _ => 1, effexp := fun _ => 1, bkgprof := fun _ => 0,
    bkgcounts := fun _ => 0, psfmat := none }

/-- A one-sample, all-zero log-amplitude sample matrix. -/
def smpW : Samples := { nsamp := 1, val := fun _ _ => 0 }

/-- A fully populated state over profW. -/
def depW : DeprojState :=
  { profile := some profW, z := some 0.1, cf := some 1, bkglim := some 2,
    samples := some smpW, nhc := 1, mup := 1, mu_e := 1 }

/-- The same state with the sample matrix left unpopulated. -/
def depNoSamples : DeprojState :=
  { profile := some profW, z := some 0.1, cf := some 1, bkglim := some 2,
    samples := none, nhc := 1, mup := 1, mu_e := 1 }

/-- A four-bin profile whose source region (all four bins lie below the
background limit 10) holds at least three points. -/
def profW3 : Prof :=
  { nbin := 4, bins := fun i => (i : ℝ) + 1, ebins := fun _ => 1 / 2,
    profile := fun _ => 1, eprof := fun _ => 1, counts := fun _ => 1,
    area := fun _ => 1, effexp := fun _ => 1, bkgprof := fun _ => 0,
    bkgcounts := fun _ => 0, psfmat := none }

/-- A state over profW3 with everything set except the sample matrix. -/
def depNoSamples3 : DeprojState :=
  { profile := some profW3, z := some 0.1, cf := some 1, bkglim := some 10,
    samples := none, nhc := 1, mup := 1, mu_e := 1 }

/-! ## Helper lemmas -/

theorem prepassGo_fst {α : Type} [LinearOrderedField α] (sPrev : α)
    (rs ss : List α) (h : rs.length = ss.length) :
    (prepassGo sPrev rs ss).1 = rs ++ [ss.getLastD sPrev] := by
  induction rs generalizing sPrev ss with
  | nil =>
    cases ss with
    | nil => simp [prepassGo]
    | cons s ss2 => exact absurd h (by simp)
  | cons r rs2 ih =>
    cases ss with
    | nil => exact absurd h (by simp)
    | cons s ss2 =>
      simp only [prepassGo, List.getLastD_cons]
      rw [ih s ss2 (by simpa using h)]
      simp

theorem runChecks_eq_none_iff (ri ro : ℕ → ℝ) (l : List (ℕ × ℕ)) :
    runChecks ri ro l = none ↔
      ∃ p ∈ l, entryNeg (volEntry ri ro p.2 p.1) := by
  induction l with
  | nil => simp [runChecks]
  | cons p rest ih =>
    simp only [runChecks]
    by_cases h : entryNeg (volEntry ri ro p.2 p.1)
    · rw [if_pos h]
      exact iff_of_true rfl ⟨p, List.mem_cons_self p rest, h⟩
    · rw [if_neg h, ih]
      simp only [List.mem_cons]
      constructor
      · rintro ⟨q, hq, hneg⟩
        exact ⟨q, Or.inr hq, hneg⟩
      · rintro ⟨q, hq | hq, hneg⟩
        · exact absurd (hq ▸ hneg) h
        · exact ⟨q, hq, hneg⟩

theorem range_map_getD {β : Type} (n k : ℕ) (f : ℕ → β) (d : β) (h : k < n) :
    ((List.range n).map f).getD k d = f k := by
  rw [List.getD_eq_getElem _ _ (by simpa using h)]
  simp

theorem npTile_length {α : Type} (l : List α) (m : ℕ) :
    (npTile l m).length = m * l.length := by
  induction m with
  | zero => simp [npTile]
  | succ m ih =>
    simp only [npTile, List.length_append, ih]
    ring

theorem npRepeatEach_length {α : Type} (l : List α) (m : ℕ) :
    (npRepeatEach l m).length = l.length * m := by
  induction l with
  | nil => simp [npRepeatEach]
  | cons a t ih =>
    simp only [npRepeatEach, List.length_append, List.length_replicate, ih,
      List.length_cons]
    ring

theorem npTile_getD {α : Type} (l : List α) (m k : ℕ) (d : α)
    (h : k < m * l.length) :
    (npTile l m).getD k d = l.getD (k % l.length) d := by
  induction m generalizing k with
  | zero => omega
  | succ m ih =>
    by_cases hk : k < l.length
    · rw [npTile, List.getD_append _ _ _ _ hk, Nat.mod_eq_of_lt hk]
    · push_neg at hk
      have hexp : (m + 1) * l.length = m * l.length + l.length := by ring
      rw [npTile, List.getD_append_right _ _ _ _ hk,
        ih _ (by omega), Nat.mod_eq_sub_mod hk]

theorem npRepeatEach_getD {α : Type} (l : List α) (m k : ℕ) (d : α)
    (hm : 0 < m) (h : k < l.length * m) :
    (npRepeatEach l m).getD k d = l.getD (k / m) d := by
  induction l generalizing k with
  | nil => simp at h
  | cons a t ih =>
    by_cases hk : k < m
    · rw [npRepeatEach, List.getD_append _ _ _ _ (by simpa using hk),
        List.getD_eq_getElem _ _ (by simpa using hk), List.getElem_replicate,
        Nat.div_eq_of_lt hk]
      rfl
    · push_neg at hk
      have hexp : (t.length + 1) * m = t.length * m + m := by ring
      have hlen : k - m < t.length * m := by
        simp only [List.length_cons] at h
        omega
      have hdiv : k / m = (k - m) / m + 1 := by
        conv_lhs => rw [show k = (k - m) + m by omega]
        rw [Nat.add_div_right _ hm]
      rw [npRepeatEach, List.getD_append_right _ _ _ _ (by simpa using hk),
        List.length_replicate, ih _ hlen, hdiv, List.getD_cons_succ]

theorem zip_getD {α β : Type} (l1 : List α) (l2 : List β) (k : ℕ)
    (d1 : α) (d2 : β) (h1 : k < l1.length) (h2 : k < l2.length) :
    (l1.zip l2).getD k (d1, d2) = (l1.getD k d1, l2.getD k d2) := by
  induction l1 generalizing l2 k with
  | nil => simp at h1
  | cons a t ih =>
    cases l2 with
    | nil => simp at h2
    | cons b s =>
      cases k with
      | zero => rfl
      | succ k =>
        simp only [List.zip_cons_cons, List.getD_cons_succ]
        exact ih s k (by simpa using h1) (by simpa using h2)

theorem list_params_length (rad : ℕ → ℝ) (npfit : ℕ) :
    (list_params rad npfit none 6).length = npfit / 4 * 6 := by
  unfold list_params
  simp [npTile_length, npRepeatEach_length, Nat.mul_comm]

theorem list_params_getD (rad : ℕ → ℝ) (npfit : ℕ) (k : ℕ)
    (hk : k < npfit / 4 * 6) :
    (list_params rad npfit none 6).getD k (0, 0) =
      (linspace 0.6 3 6 (k % 6),
        logspace (log10 (rad 2)) (log10 (rad (npfit - 1) / 2)) (npfit / 4)
          (k / 6)) := by
  unfold list_params
  simp only [Option.getD_none, List.length_map, List.length_range]
  rw [zip_getD _ _ _ _ _
      (by simp [npTile_length]; omega)
      (by simp [npRepeatEach_length]; omega)]
  rw [npTile_getD _ _ _ _ (by simp; omega),
    npRepeatEach_getD _ _ _ _ (by norm_num) (by simp; omega)]
  simp only [List.length_map, List.length_range]
  rw [range_map_getD _ _ _ _ (by omega), range_map_getD _ _ _ _ (by omega)]

/-! ## Claim theorems -/

/-- The C1 counterexample inner radii [0, 1, 2]. -/
def c1ri : List ℝ := [0, 1, 2]

/-- The C1 counterexample outer radii [1, 2, 3/2]: the outermost shell
has outer radius 3/2 below its inner radius 2. -/
def c1ro : List ℝ := [1, 2, 3 / 2]

/-- C1 counterexample: for radii with outer < inner on the last shell
the volume entry checked at (iring, ishell) = (0, 2) evaluates to a
negative number, and construction terminates the host process via
exit() (modelled none) instead of failing with a GeometryError
surfaced to the caller. -/
theorem c1_counterexample :
    entryNeg (volEntry (fun i => c1ri.getD i 0)
      (fun i => (prepass c1ri c1ro).1.getD i 0) 2 0) ∧
    deproj_vol c1ri c1ro = none := by
  have hpre : (prepass c1ri c1ro).1 = [1, 2, 3 / 2] := rfl
  have h9 : Real.sqrt 9 = 3 := by
    rw [show (9 : ℝ) = 3 ^ 2 by norm_num,
      Real.sqrt_sq (by norm_num : (0 : ℝ) ≤ 3)]
  have h4 : Real.sqrt 4 = 2 := by
    rw [show (4 : ℝ) = 2 ^ 2 by norm_num,
      Real.sqrt_sq (by norm_num : (0 : ℝ) ≤ 2)]
  have h5 : (223 / 100 : ℝ) ≤ Real.sqrt 5 := by
    have h1 : Real.sqrt ((223 / 100) ^ 2) ≤ Real.sqrt 5 :=
      Real.sqrt_le_sqrt (by norm_num)
    rwa [Real.sqrt_sq (by norm_num : (0 : ℝ) ≤ 223 / 100)] at h1
  have h3 : Real.sqrt 3 ≤ 174 / 100 := by
    have h1 : Real.sqrt 3 ≤ Real.sqrt ((174 / 100) ^ 2) :=
      Real.sqrt_le_sqrt (by norm_num)
    rwa [Real.sqrt_sq (by norm_num : (0 : ℝ) ≤ 174 / 100)] at h1
  have hneg : entryNeg (volEntry (fun i => c1ri.getD i 0)
      (fun i => ([1, 2, (3 : ℝ) / 2] : List ℝ).getD i 0) 2 0) := by
    rw [volEntry, if_neg (by norm_num : ¬ (2 = 0))]
    simp only [c1ri]
    norm_num [List.getD, p15, osub, entryNeg, Real.sqrt_one]
    rw [h9, h4]
    exact mul_neg_of_pos_of_neg (by positivity) (by nlinarith [h5, h3])
  have hmem : ((0, 2) : ℕ × ℕ) ∈ checkOrder 3 := by decide
  have hrun : runChecks (fun i => c1ri.getD i 0)
      (fun i => (prepass c1ri c1ro).1.getD i 0)
      (checkOrder (prepass c1ri c1ro).1.length) = none := by
    rw [hpre, show ([1, 2, (3 : ℝ) / 2] : List ℝ).length = 3 from rfl]
    exact (runChecks_eq_none_iff _ _ _).2 ⟨(0, 2), hmem, hneg⟩
  constructor
  · rw [hpre]
    exact hneg
  · simp only [deproj_vol]
    rw [hrun]

/-- C1 amended: MyDeprojVol.deproj_vol terminates the host process via
exit() (modelled by none) precisely when one of the checked
off-diagonal volume entries evaluates to a negative non-NaN value; in
no case is a GeometryError raised or surfaced to the caller - the
source defines no error value for this condition at all. -/
theorem c1_exit_iff_negative_entry (radin radot : List ℝ) :
    deproj_vol radin radot = none ↔
      ∃ p ∈ checkOrder (prepass radin radot).1.length,
        entryNeg (volEntry (fun i => radin.getD i 0)
          (fun i => (prepass radin radot).1.getD i 0) p.2 p.1) := by
  rw [← runChecks_eq_none_iff]
  cases h : runChecks (fun i => radin.getD i 0)
      (fun i => (prepass radin radot).1.getD i 0)
      (checkOrder (prepass radin radot).1.length) with
  | none =>
    simp only [deproj_vol]
    rw [h]
    simp
  | some u =>
    simp only [deproj_vol]
    rw [h]
    simp

/-- C10 counterpart theorem: for every abundance-table name the
constructed state carries one of the three preset (nhc, mup, mu_e)
triples, and every name outside the recognized set resolves, without
failing, to the aspl constants nhc = 1/0.8527, mup = 0.5994,
mu_e = 1.1548. -/
theorem c10_abundance_fallback (z cfv : Option ℝ) (p : Option Prof)
    (s : List Char) (h1 : s ≠ ['a', 'n', 'g', 'r'])
    (h2 : s ≠ ['a', 's', 'p', 'l']) (h3 : s ≠ ['g', 'r', 's', 'a']) :
    ((deprojectInit z p cfv s).nhc, (deprojectInit z p cfv s).mup,
      (deprojectInit z p cfv s).mu_e) = (1 / 0.8527, 0.5994, 1.1548) ∧
    ∀ t : List Char,
      ((deprojectInit z p cfv t).nhc, (deprojectInit z p cfv t).mup,
        (deprojectInit z p cfv t).mu_e) = (1 / 0.8337, 0.6125, 1.1738) ∨
      ((deprojectInit z p cfv t).nhc, (deprojectInit z p cfv t).mup,
        (deprojectInit z p cfv t).mu_e) = (1 / 0.8527, 0.5994, 1.1548) ∨
      ((deprojectInit z p cfv t).nhc, (deprojectInit z p cfv t).mup,
        (deprojectInit z p cfv t).mu_e) = (1 / 0.8520, 0.6000, 1.1555) := by
  constructor
  · simp [deprojectInit, abundance, h1, h2, h3]
  · intro t
    unfold deprojectInit abundance
    split_ifs <;> simp

/-- Witness for C10 at the unrecognized single-letter name. -/
theorem c10_abundance_fallback_witness :
    (['x'] : List Char) ≠ ['a', 'n', 'g', 'r'] ∧
    ((deprojectInit none none none ['x']).nhc,
      (deprojectInit none none none ['x']).mup,
      (deprojectInit none none none ['x']).mu_e) =
        (1 / 0.8527, 0.5994, 1.1548) :=
  ⟨by decide,
    (c10_abundance_fallback none none none ['x'] (by decide) (by decide)
      (by decide)).1⟩

/-- C9 counterexample: with ri = [1, 1.0005] and ro = [1, 2] over ℚ the
radius-continuity mismatch is 0.05 percent, inside the 0.1 percent
tolerance and without a warning, yet the pre-pass still rewrites ro[0]
from 1 to ri[1] = 1.0005: within-tolerance boundaries are not left
unchanged. -/
theorem c9_counterexample :
    (prepass ([1, 2001 / 2000] : List ℚ) [1, 2]).2 = 1 / 20 ∧
    ¬ prepassWarns ([1, 2001 / 2000] : List ℚ) [1, 2] ∧
    (prepass ([1, 2001 / 2000] : List ℚ) [1, 2]).1 ≠ [1, 2] := by
  have habs : |((2001 : ℚ) / 2000) - 1| = 1 / 2000 := by
    rw [abs_of_pos (by norm_num)]
    norm_num
  have h2 : (prepass ([1, 2001 / 2000] : List ℚ) [1, 2]).2 = 1 / 20 := by
    show |((2001 : ℚ) / 2000) - 1| / 1 * 100 + 0 = 1 / 20
    rw [habs]
    norm_num
  refine ⟨h2, ?_, ?_⟩
  · rw [prepassWarns, h2]
    rw [abs_of_pos (show (0 : ℚ) < 1 / 20 by norm_num)]
    norm_num
  · show ([(2001 : ℚ) / 2000, 2]) ≠ [1, 2]
    intro h
    simp only [List.cons.injEq] at h
    exact absurd h.1 (by norm_num)

/-- C9 amended: the pre-pass snaps the outer radius of every shell i to
the inner radius of shell i + 1 unconditionally - whatever the size of
the mismatch - keeping only the last outer radius; the 0.1 percent
threshold on the accumulated mismatch controls only the printed
warning. -/
theorem c9_always_snaps {α : Type} [LinearOrderedField α] (ri ro : List α)
    (d : α) (h : ri.length = ro.length) (hne : ri ≠ []) :
    (prepass ri ro).1 = ri.tail ++ [ro.getLastD d] := by
  cases ri with
  | nil => exact absurd rfl hne
  | cons r rs =>
    cases ro with
    | nil => exact absurd h (by simp)
    | cons s ss =>
      show (prepassGo s rs ss).1 = rs ++ [(s :: ss).getLastD d]
      rw [List.getLastD_cons, prepassGo_fst s rs ss (by simpa using h)]

/-- Witness for C9 amended on rational radii: the snap happens even
though the 0.05 percent mismatch is inside tolerance. -/
theorem c9_always_snaps_witness :
    ([1, 2001 / 2000] : List ℚ).length = ([1, 2] : List ℚ).length ∧
    ([1, 2001 / 2000] : List ℚ) ≠ [] ∧
    (prepass ([1, 2001 / 2000] : List ℚ) [1, 2]).1 = [2001 / 2000, 2] :=
  ⟨rfl, by simp,
    c9_always_snaps [1, 2001 / 2000] [1, 2] 0 rfl (by simp)⟩

/-- C5: rows of the counts operator at or beyond the source region
vanish in all basis columns, its background column is area * expo in
every row, and the plain surface-brightness and density operators have
an all-zero background column.  The column count nBasis + 1 holds at
the type level for all four builders. -/
theorem c5_operator_structure (nptot : ℕ) (rad : Fin nptot → ℝ) (npt : ℕ)
    (pars : List (ℝ × ℝ)) (area expo : Fin nptot → ℝ)
    (psf : Fin nptot → Fin nptot → ℝ) (kpcp : ℝ) :
    (∀ (i : Fin nptot) (j : Fin (pars.length + 1)), npt ≤ (i : ℕ) →
      (j : ℕ) < pars.length →
      calc_linear_operator nptot rad npt pars area expo psf i j = 0) ∧
    (∀ i : Fin nptot,
      calc_linear_operator nptot rad npt pars area expo psf i
        (Fin.last pars.length) = area i * expo i) ∧
    (∀ i : Fin nptot,
      calc_sb_operator nptot rad npt pars i (Fin.last pars.length) = 0) ∧
    (∀ i : Fin nptot,
      calc_density_operator nptot rad kpcp pars i (Fin.last pars.length) = 0) := by
  refine ⟨?_, ?_, ?_, ?_⟩
  · intro i j hi hj
    simp only [calc_linear_operator, Matrix.of_apply]
    rw [dif_pos hj, if_neg (by omega)]
  · intro i
    simp only [calc_linear_operator, Matrix.of_apply]
    rw [dif_neg (by simp)]
  · intro i
    simp only [calc_sb_operator, Matrix.of_apply]
    rw [dif_neg (by simp)]
  · intro i
    simp only [calc_density_operator, Matrix.of_apply]
    rw [dif_neg (by simp)]

/-- Witness for C5: a 2-bin instance with a 1-bin source region; the
second row of the counts operator carries no source contribution. -/
theorem c5_operator_structure_witness :
    (1 : ℕ) ≤ ((1 : Fin 2) : ℕ) ∧ ((0 : Fin 2) : ℕ) < 1 ∧
    calc_linear_operator 2 (fun _ => 1) 1 [((1 : ℝ), (1 : ℝ))]
      (fun _ => 1) (fun _ => 1) (fun _ _ => 1) 1 0 = 0 :=
  ⟨by decide, by decide,
    (c5_operator_structure 2 (fun _ => 1) 1 [((1 : ℝ), (1 : ℝ))]
      (fun _ => 1) (fun _ => 1) (fun _ _ => 1) 1).1 1 0 (by decide) (by decide)⟩

/-- C6: each basis entry of the density operator equals the beta-model
shape at the kpc-scaled radius with exponent -3 slope, multiplied by the
closed-form Abel deprojection prefactor
Gamma(3 slope)/Gamma(3 slope - 0.5)/sqrt(pi)/coreRadius. -/
theorem c6_density_entry (nptot : ℕ) (rad : Fin nptot → ℝ) (kpcp : ℝ)
    (pars : List (ℝ × ℝ)) (i : Fin nptot) (j : Fin (pars.length + 1))
    (hj : (j : ℕ) < pars.length) :
    calc_density_operator nptot rad kpcp pars i j =
      (1 + (rad i * kpcp / (pars.get ⟨(j : ℕ), hj⟩).2) ^ 2) ^
          (-3 * (pars.get ⟨(j : ℕ), hj⟩).1 : ℝ) *
        (Real.Gamma (3 * (pars.get ⟨(j : ℕ), hj⟩).1) /
          Real.Gamma (3 * (pars.get ⟨(j : ℕ), hj⟩).1 - 0.5) /
          Real.sqrt π / (pars.get ⟨(j : ℕ), hj⟩).2) := by
  simp only [calc_density_operator, Matrix.of_apply]
  rw [dif_pos hj]

/-- Witness for C6 at a singleton grid. -/
theorem c6_density_entry_witness :
    ((0 : Fin 2) : ℕ) < 1 ∧
    calc_density_operator 1 (fun _ => 2) 3 [((1 : ℝ), (5 : ℝ))]
        0 0 =
      (1 + (2 * 3 / 5 : ℝ) ^ 2) ^ (-3 * (1 : ℝ) : ℝ) *
        (Real.Gamma (3 * 1) / Real.Gamma (3 * 1 - 0.5) / Real.sqrt π / 5) :=
  ⟨by decide,
    c6_density_entry 1 (fun _ => 2) 3 [((1 : ℝ), (5 : ℝ))] 0 0
      (by decide)⟩

/-- C4 counterexample: at a one-bin, one-basis instance with area 2,
exposure 3 and identity PSF, the PSF surface-brightness operator entry
is 3 = (area * expo) * shape, while the PSF applied to the bare shape -
what the claim asserts - is 1/2: the source does multiply by per-bin
area and exposure. -/
theorem c4_counterexample :
    calc_sb_operator_psf 1 (fun _ => 1) 1 [((0.5 : ℝ), (1 : ℝ))]
        (fun _ => 2) (fun _ => 3) (fun _ _ => 1) 0 0 = 3 ∧
    sb_psf_operator_spec 1 (fun _ => 1) 1 [((0.5 : ℝ), (1 : ℝ))]
        (fun _ _ => 1) 0 0 = 1 / 2 := by
  have hs : sbShape 1 (1 / 2) 1 = 1 / 2 := by
    unfold sbShape
    rw [show ((1 : ℝ) + (1 / 1) ^ 2) = 2 by norm_num,
      show (-3 * (1 / 2 : ℝ) + 0.5) = ((-1 : ℤ) : ℝ) by norm_num,
      Real.rpow_intCast]
    norm_num
  constructor
  · norm_num [calc_sb_operator_psf, Fin.sum_univ_succ]
    rw [hs]
    norm_num
  · norm_num [sb_psf_operator_spec, Fin.sum_univ_succ]
    rw [hs]

/-- C4 amended: the PSF-convolved surface-brightness operator coincides
entrywise with the counts operator calc_linear_operator: the PSF is
applied to the shape evaluation multiplied by per-bin area and
exposure, and the background column is area * expo. -/
theorem c4_psf_equals_counts (nptot : ℕ) (rad : Fin nptot → ℝ) (npt : ℕ)
    (pars : List (ℝ × ℝ)) (area expo : Fin nptot → ℝ)
    (psf : Fin nptot → Fin nptot → ℝ) :
    calc_sb_operator_psf nptot rad npt pars area expo psf =
      calc_linear_operator nptot rad npt pars area expo psf := rfl

/-- C2: in unitless pass-through mode (redshift absent here) the
onion-peeling deprojector does not run to completion: after the volume
matrix is built the source evaluates EdgeCorr(nbin, rinam, routam) with
the required fourth argument em0 missing, so the call raises TypeError
before any Monte Carlo draw, and no density output is populated -
whatever the noise draw, trial count or cosmology inputs. -/
theorem c2_passthrough_typeerror (noise : ℕ → ℕ → ℝ) (nmc : ℕ)
    (kpcp dlumMpc : ℝ) :
    OP { depNoSamples with z := none } kpcp dlumMpc noise nmc =
      .raised .typeError := rfl

theorem srcCount_profW3 : srcCount profW3 10 = 4 := by
  have hall : ∀ a ∈ List.range profW3.nbin,
      decide (profW3.bins a < (10 : ℝ)) = true := by
    intro a ha
    rw [decide_eq_true_eq]
    have ha4 : a < 4 := by simpa [profW3] using List.mem_range.1 ha
    have har : (a : ℝ) < 4 := by exact_mod_cast ha4
    show (a : ℝ) + 1 < 10
    linarith
  unfold srcCount
  rw [List.filter_eq_self.2 hall]
  rfl

/-- C3 counterexample: with redshift, conversion factor, profile and
background limit all present, a 4-bin source region, and the sample
matrix unpopulated, Density raises an uncaught AttributeError
(np.exp(samples.T) on None) instead of reporting an error and aborting
cleanly: the claim fails for Density. -/
theorem c3_counterexample :
    depNoSamples3.samples = none ∧ 3 ≤ srcCount profW3 10 ∧
    Density depNoSamples3 1 none = .raised .attributeError := by
  have h4 := srcCount_profW3
  have hn : ¬ srcCount profW3 (10 : ℝ) < 3 := by omega
  refine ⟨rfl, by omega, ?_⟩
  simp [Density, depNoSamples3, list_params_density, hn]

/-- C3 amended: with no sample matrix, CountRate, Ncounts, Mgas and CSB
each fail with a printed error and a bare return that leaves the state
untouched; Density however has no samples check: when profile,
background limit, redshift and conversion factor are all present it
crashes - with an uncaught AttributeError at np.exp(samples.T) when the
source region holds at least 3 bins, and already before that with an
uncaught IndexError inside list_params_density when it holds fewer. -/
theorem c3_guards (dep : DeprojState) (hs : dep.samples = none)
    (a b kpcp radius rin rout : ℝ) :
    CountRate dep a b = .printedError .noMCMCSamples ∧
    Ncounts dep = .printedError .noMCMCSamples ∧
    Mgas dep kpcp radius = .printedError .noGasDensityProfile ∧
    CSB dep kpcp rin rout = .printedError .noProfileReconstruction ∧
    (∀ p bl zv cfv, dep.profile = some p → dep.bkglim = some bl →
      dep.z = some zv → dep.cf = some cfv →
      (3 ≤ srcCount p bl →
        Density dep kpcp none = .raised .attributeError) ∧
      (srcCount p bl < 3 →
        Density dep kpcp none = .raised .indexError)) := by
  refine ⟨?_, ?_, ?_, ?_, ?_⟩
  · simp [CountRate, hs]
  · simp [Ncounts, hs]
  · simp [Mgas, hs]
  · simp [CSB, hs]
  · intro p bl zv cfv hp hb hz hcf
    constructor
    · intro h3
      have hn : ¬ srcCount p bl < 3 := by omega
      simp [Density, hp, hb, hz, hcf, hs, list_params_density, hn]
    · intro h3
      simp [Density, hp, hb, hz, hcf, hs, list_params_density, h3]

/-- Witness for C3 amended at the concrete unpopulated 4-bin state. -/
theorem c3_guards_witness :
    depNoSamples3.samples = none ∧
    CountRate depNoSamples3 1 2 = .printedError .noMCMCSamples ∧
    Density depNoSamples3 1 none = .raised .attributeError :=
  ⟨rfl, (c3_guards depNoSamples3 rfl 1 2 1 1 1 1).1,
    ((c3_guards depNoSamples3 rfl 1 2 1 1 1 1).2.2.2.2 profW3 10 0.1 1
      rfl rfl rfl rfl).1 (by rw [srcCount_profW3]; norm_num)⟩

/-- C7: for a source region of npfit >= 3 bins the default grid has
floor(npfit / 4) * 6 entries; the slopes are the 6 values 0.6 + 0.48 k,
linearly spaced over [0.6, 3.0], indexed by k % 6 (slope varies
fastest); the core radius is constant on each block of 6 (core radius
varies slowest), its first value is the 3rd source-region radius, its
last value is half the last source-region radius, and successive values
have a constant ratio, i.e. they are log-spaced between those two
endpoints. -/
theorem c7_default_grid (rad : ℕ → ℝ) (npfit : ℕ) (h3 : 3 ≤ npfit)
    (hA : 0 < rad 2) (hB : 0 < rad (npfit - 1)) :
    (list_params rad npfit none 6).length = npfit / 4 * 6 ∧
    (∀ k, k < npfit / 4 * 6 →
      ((list_params rad npfit none 6).getD k (0, 0)).1 =
        0.6 + 0.48 * ((k % 6 : ℕ) : ℝ)) ∧
    (∀ k, k < npfit / 4 * 6 →
      ((list_params rad npfit none 6).getD k (0, 0)).2 =
        ((list_params rad npfit none 6).getD (6 * (k / 6)) (0, 0)).2) ∧
    (0 < npfit / 4 →
      ((list_params rad npfit none 6).getD 0 (0, 0)).2 = rad 2) ∧
    (2 ≤ npfit / 4 →
      ((list_params rad npfit none 6).getD (npfit / 4 * 6 - 1) (0, 0)).2 =
        rad (npfit - 1) / 2) ∧
    (∀ j, j + 1 < npfit / 4 →
      ((list_params rad npfit none 6).getD (6 * (j + 1)) (0, 0)).2 *
          ((list_params rad npfit none 6).getD 0 (0, 0)).2 =
        ((list_params rad npfit none 6).getD (6 * j) (0, 0)).2 *
          ((list_params rad npfit none 6).getD 6 (0, 0)).2) := by
  refine ⟨list_params_length rad npfit, ?_, ?_, ?_, ?_, ?_⟩
  · intro k hk
    rw [list_params_getD rad npfit k hk]
    show linspace 0.6 3 6 (k % 6) = _
    rw [linspace, if_neg (by norm_num)]
    push_cast
    ring
  · intro k hk
    have hk2 : 6 * (k / 6) < npfit / 4 * 6 := by omega
    rw [list_params_getD rad npfit k hk, list_params_getD rad npfit _ hk2]
    show logspace _ _ _ (k / 6) = logspace _ _ _ (6 * (k / 6) / 6)
    rw [Nat.mul_div_cancel_left (k / 6) (by norm_num : 0 < 6)]
  · intro hpos
    rw [list_params_getD rad npfit 0 (by omega)]
    show logspace _ _ _ (0 / 6) = rad 2
    have hl : linspace (log10 (rad 2)) (log10 (rad (npfit - 1) / 2))
        (npfit / 4) (0 / 6) = log10 (rad 2) := by
      rw [linspace]
      split_ifs with h
      · rfl
      · push_cast
        ring
    rw [logspace, hl]
    exact Real.rpow_logb (by norm_num) (by norm_num) hA
  · intro h2
    have hk : npfit / 4 * 6 - 1 < npfit / 4 * 6 := by omega
    rw [list_params_getD rad npfit _ hk]
    show logspace _ _ _ ((npfit / 4 * 6 - 1) / 6) = rad (npfit - 1) / 2
    have hdiv : (npfit / 4 * 6 - 1) / 6 = npfit / 4 - 1 := by omega
    rw [hdiv, logspace, linspace, if_neg (by omega)]
    have hne : ((npfit / 4 : ℕ) : ℝ) - 1 ≠ 0 := by
      have h2r : (2 : ℝ) ≤ ((npfit / 4 : ℕ) : ℝ) := by exact_mod_cast h2
      intro hq
      rw [sub_eq_zero] at hq
      rw [hq] at h2r
      norm_num at h2r
    have hcast : ((npfit / 4 - 1 : ℕ) : ℝ) = ((npfit / 4 : ℕ) : ℝ) - 1 := by
      have hc : ((npfit / 4 - 1 : ℕ) : ℝ) = ((npfit / 4 : ℕ) : ℝ) - ((1 : ℕ) : ℝ) :=
        Nat.cast_sub (by omega)
      simpa using hc
    rw [hcast]
    have hexp : log10 (rad 2) +
        (log10 (rad (npfit - 1) / 2) - log10 (rad 2)) *
          (((npfit / 4 : ℕ) : ℝ) - 1) / (((npfit / 4 : ℕ) : ℝ) - 1) =
        log10 (rad (npfit - 1) / 2) := by
      field_simp
    rw [hexp]
    exact Real.rpow_logb (by norm_num) (by norm_num)
      (div_pos hB (by norm_num))
  · intro j hj
    have hcon : ¬ npfit / 4 ≤ 1 := by omega
    rw [list_params_getD rad npfit _ (by omega),
      list_params_getD rad npfit 0 (by omega),
      list_params_getD rad npfit _ (by omega),
      list_params_getD rad npfit 6 (by omega)]
    show logspace _ _ _ (6 * (j + 1) / 6) * logspace _ _ _ (0 / 6) =
      logspace _ _ _ (6 * j / 6) * logspace _ _ _ (6 / 6)
    have e1 : 6 * (j + 1) / 6 = j + 1 := by omega
    have e3 : 6 * j / 6 = j := by omega
    rw [e1, e3, show (0 : ℕ) / 6 = 0 from rfl, show (6 : ℕ) / 6 = 1 from rfl]
    simp only [logspace]
    rw [← Real.rpow_add (by norm_num : (0 : ℝ) < 10),
      ← Real.rpow_add (by norm_num : (0 : ℝ) < 10)]
    congr 1
    simp only [linspace, if_neg hcon]
    push_cast
    ring

/-- Witness for C7 at a 9-point source region on the radii i + 1. -/
theorem c7_default_grid_witness :
    (3 : ℕ) ≤ 9 ∧ (0 : ℝ) < ((2 : ℕ) : ℝ) + 1 ∧
    (list_params (fun i => ((i : ℕ) : ℝ) + 1) 9 none 6).length = 12 :=
  ⟨by norm_num, by norm_num,
    (c7_default_grid (fun i => ((i : ℕ) : ℝ) + 1) 9 (by norm_num)
      (by norm_num) (by norm_num)).1⟩

/-- C8: CountRate silently clamps a lower integration bound below half
the innermost bin radius: on a populated state the result is exactly
that of the call at half the innermost radius; the call is not
rejected. -/
theorem c8_countrate_clamp (dep : DeprojState) (p : Prof) (s : Samples)
    (bl : ℝ) (a b : ℝ) (hp : dep.profile = some p)
    (hs : dep.samples = some s) (hb : dep.bkglim = some bl)
    (ha : a < p.bins 0 / 2) :
    CountRate dep a b = CountRate dep (p.bins 0 / 2) b := by
  simp only [CountRate, hp, hs, hb]
  rw [if_pos ha, if_neg (lt_irrefl _)]

/-- Witness for C8: a call at a = 1/4 on the populated state over profW
(innermost half-radius 1/2) equals the call at 1/2. -/
theorem c8_countrate_clamp_witness :
    depW.profile = some profW ∧ depW.samples = some smpW ∧
    depW.bkglim = some 2 ∧ ((1 : ℝ) / 4 < profW.bins 0 / 2) ∧
    CountRate depW (1 / 4) 5 = CountRate depW (1 / 2) 5 :=
  ⟨rfl, rfl, rfl, by norm_num [profW],
    c8_countrate_clamp depW profW smpW 2 (1 / 4) 5 rfl rfl rfl
      (by norm_num [profW])⟩

end

end Pyproffit
